import Mathlib

/-!
Verification development for the jwks-to-pem utility.

The Go sources are shallowly embedded: byte slices become `List Nat`
(each entry a byte value), the filesystem becomes an association list
from paths to contents, and calls into third-party libraries
(imohash hashing, x509 PKIX marshaling, text templating, filepath
joining) become explicit function parameters bundled in `Libs`.
Fallible I/O steps are driven by explicit outcome parameters so that
error paths of the Go code are represented faithfully.
-/

deriving instance DecidableEq for Except

/-- Byte strings: Go `[]byte` as a list of byte values. -/
abbrev ByteStr : Type := List Nat

/-- Convert a Lean string to its byte-value list (ASCII code points). -/
def strToBytes (s : String) : ByteStr := s.data.map Char.toNat

/-- The filesystem: an association list from path to file content.
A path that is absent models a file that does not exist. -/
abbrev FS : Type := List (String × ByteStr)

/-- Look up the content of a file, `none` when it does not exist. -/
def fsLookup : FS → String → Option ByteStr
  | [], _ => none
  | (q, d) :: rest, p => if p = q then some d else fsLookup rest p

/-- Remove a file from the filesystem (no-op when absent, matching
`os.Remove` whose error is ignored by the code modelled here). -/
def fsErase : FS → String → FS
  | [], _ => []
  | (q, d) :: rest, p => if p = q then fsErase rest p else (q, d) :: fsErase rest p

/-- Create or overwrite a file with the given content. -/
def fsInsert (fs : FS) (p : String) (d : ByteStr) : FS := (p, d) :: fsErase fs p

theorem fsLookup_fsErase (fs : FS) (p q : String) :
    fsLookup (fsErase fs p) q = if q = p then none else fsLookup fs q := by
  induction fs with
  | nil => simp [fsErase, fsLookup]
  | cons hd tl ih =>
    obtain ⟨r, d⟩ := hd
    by_cases hrp : p = r
    · subst hrp
      by_cases hqp : q = p
      · subst hqp
        simpa [fsErase, fsLookup] using ih
      · simp [fsErase, fsLookup, ih, hqp]
    · by_cases hqr : q = r
      · subst hqr
        simp [fsErase, fsLookup, hrp, ih]
        intro h
        exact absurd h.symm hrp
      · simp [fsErase, fsLookup, hrp, hqr, ih]

theorem fsLookup_fsInsert (fs : FS) (p q : String) (d : ByteStr) :
    fsLookup (fsInsert fs p d) q = if q = p then some d else fsLookup fs q := by
  by_cases hqp : q = p
  · subst hqp
    simp [fsInsert, fsLookup]
  · simp [fsInsert, fsLookup, hqp, fsLookup_fsErase]

/-- Key material held by a JWK, as seen through the type assertions in
`JWK.Bytes` (src/internal/pkg/jwks/jwks.go): an RSA public key, an
ECDSA public key, or something else. The numeric fields stand for the
mathematical content of the Go structs; the PKIX marshaling of that
content is the `marshalPKIX` parameter of `Libs`. -/
inductive KeyMaterial where
  | rsa (n e : Nat)
  | ecdsa (x y : Nat)
  | other
deriving DecidableEq

/-- The `JWK` struct of src/internal/pkg/jwks/jwks.go. `alg` and `kid`
are the results of the `ALG()` and `KID()` accessors, `key` the result
of `key.Key()`, and `data` the cached byte conversion (nil for a key
freshly built by `GetJWKS`). -/
structure JWK where
  alg : String
  kid : String
  key : KeyMaterial
  data : Option ByteStr
deriving DecidableEq

/-- The third-party library routines the package calls, supplied as
parameters of the embedded model:
`hash` is `imohash.New()` hashing (`Sum` on a byte slice; `SumFile`
is `hash` of the file content), `marshalPKIX` is
`x509.MarshalPKIXPublicKey`, `parseTmpl` is
`template.New("pattern").Parse` (success yields the function that
`Execute` computes from the `Index`/`KeyID` pair), and `joinPath` is
`filepath.Join`. -/
structure Libs where
  hash : ByteStr → ByteStr
  marshalPKIX : KeyMaterial → Except String ByteStr
  parseTmpl : String → Except String (Nat → String → Except String String)
  joinPath : String → String → String

/-- Message of `ErrNotRSAPublicKey`. -/
def errNotRSAPublicKey : String := "was not a RSA public key"

/-- Message of `ErrNotECDSAPublicKey`. -/
def errNotECDSAPublicKey : String := "was not a ECDSA public key"

/-- Message of `ErrUnsupportedAlgorithm`. -/
def errUnsupportedAlgorithm : String := "unsupported key algorithm"

/-- `WriteError.Error()` from src/internal/pkg/jwks/jwks.go: the
message, the key id when present, and the wrapped error. -/
def mkWriteError (message keyID errmsg : String) : String :=
  if keyID ≠ "" then message ++ "(KID: " ++ keyID ++ "): " ++ errmsg
  else message ++ ": " ++ errmsg

/-- The standard base64 alphabet used by `encoding/base64.StdEncoding`,
which `encoding/pem` uses for the block body. -/
def b64Alphabet : String :=
  "ABCDEFGHIJKLMNOPQRSTUVWXYZabcdefghijklmnopqrstuvwxyz0123456789+/"

/-- The base64 alphabet as byte values. -/
def b64Table : ByteStr := strToBytes b64Alphabet

/-- Indexing into a byte list, zero outside the range. -/
def nthByte : ByteStr → Nat → Nat
  | [], _ => 0
  | x :: _, 0 => x
  | _ :: rest, n + 1 => nthByte rest n

/-- The base64 digit for a 6-bit value. -/
def b64char (i : Nat) : Nat := nthByte b64Table i

/-- Position of a byte inside a byte list (length when absent). -/
def posInBytes : ByteStr → Nat → Nat
  | [], _ => 0
  | x :: rest, c => if c = x then 0 else posInBytes rest c + 1

/-- The 6-bit value of a base64 digit. -/
def b64value (c : Nat) : Nat := posInBytes b64Table c

/-- The ASCII code of the base64 padding character. -/
def b64pad : Nat := 61

/-- Base64 encoding of a byte string (standard encoding with padding),
as `encoding/base64.StdEncoding.Encode` produces. -/
def b64encode : ByteStr → ByteStr
  | [] => []
  | [b1] => [b64char (b1 / 4), b64char (b1 % 4 * 16), b64pad, b64pad]
  | [b1, b2] => [b64char (b1 / 4), b64char (b1 % 4 * 16 + b2 / 16),
      b64char (b2 % 16 * 4), b64pad]
  | b1 :: b2 :: b3 :: rest =>
      b64char (b1 / 4) :: b64char (b1 % 4 * 16 + b2 / 16) ::
      b64char (b2 % 16 * 4 + b3 / 64) :: b64char (b3 % 64) :: b64encode rest

/-- Base64 decoding of a padded base64 byte string. -/
def b64decode : ByteStr → ByteStr
  | c1 :: c2 :: c3 :: c4 :: rest =>
      if c3 = b64pad then
        [b64value c1 * 4 + b64value c2 / 16]
      else if c4 = b64pad then
        [b64value c1 * 4 + b64value c2 / 16,
         b64value c2 % 16 * 16 + b64value c3 / 4]
      else
        (b64value c1 * 4 + b64value c2 / 16) ::
        (b64value c2 % 16 * 16 + b64value c3 / 4) ::
        (b64value c3 % 4 * 64 + b64value c4) :: b64decode rest
  | _ => []

/-- Line breaking performed by the `lineBreaker` writer of
`encoding/pem`: a newline after every 64 output characters and after a
trailing partial line. -/
def wrapLines (s : ByteStr) : ByteStr :=
  if s = [] then []
  else if s.length ≤ 64 then s ++ [10]
  else s.take 64 ++ 10 :: wrapLines (s.drop 64)
termination_by s.length
decreasing_by
  simp only [List.length_drop]
  omega

/-- Drop the newline bytes inserted by `wrapLines`. -/
def stripNL (s : ByteStr) : ByteStr := s.filter (fun c => c ≠ 10)

/-- `pem.Encode` of a block with type "PUBLIC KEY", no headers, and the
given DER bytes, written to a `bytes.Buffer` (whose writes never
fail): BEGIN line, base64 body wrapped at 64 columns, END line. -/
def pemEncode (b : ByteStr) : ByteStr :=
  strToBytes "-----BEGIN PUBLIC KEY-----\n" ++ wrapLines (b64encode b) ++
    strToBytes "-----END PUBLIC KEY-----\n"

/-- `JWK.Bytes` from src/internal/pkg/jwks/jwks.go: return the cached
conversion when present; otherwise switch on the algorithm (the Go
`switch` becomes an if-chain over its case lists), assert the key
type, and PKIX-marshal the public key. The write of the cache on
success is dropped from this pure model; its read is kept. -/
def JWK.Bytes (L : Libs) (jwk : JWK) : Except String ByteStr :=
  match jwk.data with
  | some d => .ok d
  | none =>
    if jwk.alg = "RS256" ∨ jwk.alg = "RS384" ∨ jwk.alg = "RS512" then
      match jwk.key with
      | .rsa _ _ => L.marshalPKIX jwk.key
      | _ => .error (mkWriteError "invalid key" jwk.kid errNotRSAPublicKey)
    else if jwk.alg = "ES256" ∨ jwk.alg = "ES384" ∨ jwk.alg = "ES512" then
      match jwk.key with
      | .ecdsa _ _ => L.marshalPKIX jwk.key
      | _ => .error (mkWriteError "invalid key" jwk.kid errNotECDSAPublicKey)
    else .error (mkWriteError "invalid key" jwk.kid errUnsupportedAlgorithm)

/-- `JWK.PEM` from src/internal/pkg/jwks/jwks.go: the byte conversion
followed by `pem.Encode` into a buffer. With a `bytes.Buffer` the
encode step cannot fail, so its error branch is unreachable. -/
def JWK.PEM (L : Libs) (jwk : JWK) : Except String ByteStr :=
  match jwk.Bytes L with
  | .error e => .error e
  | .ok b => .ok (pemEncode b)

/-- `keychanged` from src/internal/pkg/jwks/jwks.go: hash the file at
`current` (`SumFile`; a missing file yields `fs.ErrNotExist`, on which
the function returns `(true, nil)`) and compare with the hash of
`data`. -/
def keychanged (L : Libs) (fs : FS) (current : String) (data : ByteStr) :
    Bool × Option String :=
  match fsLookup fs current with
  | none => (true, none)
  | some content => (L.hash data != L.hash content, none)

/-- `JWK.Changed` from src/internal/pkg/jwks/jwks.go: PEM-encode the
key and delegate to `keychanged`. -/
def JWK.Changed (L : Libs) (jwk : JWK) (fs : FS) (current : String) :
    Bool × Option String :=
  match jwk.PEM L with
  | .error e => (false, some e)
  | .ok data => keychanged L fs current data

/-- Outcome of the fallible I/O steps inside `JWK.Write`: which step of
create-temp / write / close / rename fails, if any. `writeFail k`
models a partial write of `k` bytes before the error. -/
inductive WriteOutcome where
  | createFail
  | writeFail (k : Nat)
  | closeFail
  | renameFail
  | success
deriving DecidableEq

/-- Message used for failed temp-file creation. -/
def errCreateTemp : String := "could not create temp file"

/-- Message used for a failed write to the temp file. -/
def errTempWrite : String := "could not write temp file"

/-- Message used for a failed close of the temp file. -/
def errTempClose : String := "could not close temp file"

/-- Message used for a failed rename of the temp file. -/
def errRename : String := "could not rename temp file"

/-- `JWK.Write` from src/internal/pkg/jwks/jwks.go: PEM-encode the key,
create a temp file (named `tempName` by `os.CreateTemp`) in the
destination directory, write the data, close, and rename over `name`.
The deferred close-and-remove runs on every path after creation; the
error of the deferred `os.Remove` is ignored, so after a successful
rename it is a no-op on the (already moved) temp name. -/
def JWK.Write (L : Libs) (jwk : JWK) (fs : FS) (name tempName : String)
    (oc : WriteOutcome) : FS × Option String :=
  match jwk.PEM L with
  | .error e => (fs, some e)
  | .ok data =>
    match oc with
    | .createFail => (fs, some errCreateTemp)
    | .writeFail k =>
        let fs1 := fsInsert (fsInsert fs tempName []) tempName (data.take k)
        (fsErase fs1 tempName, some errTempWrite)
    | .closeFail =>
        let fs1 := fsInsert (fsInsert fs tempName []) tempName data
        (fsErase fs1 tempName, some errTempClose)
    | .renameFail =>
        let fs1 := fsInsert (fsInsert fs tempName []) tempName data
        (fsErase fs1 tempName, some errRename)
    | .success =>
        let fs1 := fsInsert (fsInsert fs tempName []) tempName data
        let fs2 := fsInsert (fsErase fs1 tempName) name data
        (fsErase fs2 tempName, none)

/-- Environment driving the fallible write steps during a `WriteKeys`
pass: for the key at position `n`, the temp file name `os.CreateTemp`
chooses and the I/O outcome of its `JWK.Write` call. -/
structure WEnv where
  tempNames : Nat → String
  outcomes : Nat → WriteOutcome

/-- What happened to one key during the `WriteKeys` loop; one
constructor per branch of the loop body of
src/internal/pkg/jwks/jwks.go. -/
inductive KeyOutcome where
  | pemError (e : String)
  | toStderr (data : ByteStr)
  | execError (e : String)
  | changedError (path : String) (e : String)
  | unchanged (path : String)
  | writeError (path : String) (e : String)
  | written (path : String) (data : ByteStr)
deriving DecidableEq

/-- Whether the outcome is a successful file write (the only branch
that sets `keyChanged` in the Go loop). -/
def KeyOutcome.isWritten : KeyOutcome → Bool
  | .written _ _ => true
  | _ => false

/-- The error the loop appended to `errs` for this key, if any. -/
def KeyOutcome.errOf : KeyOutcome → Option String
  | .pemError e => some e
  | .execError e => some e
  | .changedError _ e => some e
  | .writeError _ e => some e
  | _ => none

/-- The output file path the loop computed for this key, if it got to
computing one. -/
def KeyOutcome.pathOf : KeyOutcome → Option String
  | .changedError p _ => some p
  | .unchanged p => some p
  | .writeError p _ => some p
  | .written p _ => some p
  | _ => none

/-- The body of the `WriteKeys` loop of src/internal/pkg/jwks/jwks.go
for the key at position `n`: PEM-encode (collecting the error on
failure), dump to stderr when no output directory is set, execute the
name template, join with the output directory, compare via `Changed`,
and write when changed. -/
def writeKeyStep (L : Libs) (w : WEnv) (t : Nat → String → Except String String)
    (output : String) (fs : FS) (n : Nat) (jwk : JWK) : FS × KeyOutcome :=
  match jwk.PEM L with
  | .error e => (fs, .pemError e)
  | .ok data =>
    if output = "" then (fs, .toStderr data)
    else
      match t n jwk.kid with
      | .error e => (fs, .execError (mkWriteError "template execution failed" jwk.kid e))
      | .ok name =>
        let outFile := L.joinPath output name
        match jwk.Changed L fs outFile with
        | (_, some e) => (fs, .changedError outFile (mkWriteError "error comparing keys" jwk.kid e))
        | (false, none) => (fs, .unchanged outFile)
        | (true, none) =>
          match jwk.Write L fs outFile (w.tempNames n) (w.outcomes n) with
          | (fs1, some e) => (fs1, .writeError outFile (mkWriteError "writing key failed" jwk.kid e))
          | (fs1, none) => (fs1, .written outFile data)

/-- The `WriteKeys` loop over the keyset, threading the filesystem and
recording one outcome per key; `n` is the loop index of the key at the
head of the list. -/
def writeKeysGo (L : Libs) (w : WEnv) (t : Nat → String → Except String String)
    (output : String) : FS → Nat → List JWK → FS × List KeyOutcome
  | fs, _, [] => (fs, [])
  | fs, n, jwk :: rest =>
    let s := writeKeyStep L w t output fs n jwk
    let r := writeKeysGo L w t output s.1 (n + 1) rest
    (r.1, s.2 :: r.2)

/-- `errors.Join` over the collected per-key errors: nil when none
occurred, otherwise the newline-joined messages. -/
def joinErrors (l : List String) : Option String :=
  match l with
  | [] => none
  | _ => some (String.intercalate "\n" l)

/-- `JWKS.WriteKeys` from src/internal/pkg/jwks/jwks.go: parse the
name pattern (failure returns immediately with a `WriteError`), run
the loop over all keys, and return the final filesystem, the per-key
outcomes, the `keyChanged` flag (set exactly by successful writes),
and the joined error. -/
def WriteKeys (L : Libs) (w : WEnv) (keys : List JWK) (pattern output : String)
    (fs : FS) : FS × List KeyOutcome × Bool × Option String :=
  match L.parseTmpl pattern with
  | .error e => (fs, [], false, some (mkWriteError "pattern could not be parsed" "" e))
  | .ok t =>
    let r := writeKeysGo L w t output fs 0 keys
    (r.1, r.2, r.2.any KeyOutcome.isWritten, joinErrors (r.2.filterMap KeyOutcome.errOf))

/-- Environment of one execution of the root command: the result of
the JWKS fetch, the filesystem, the write-step environment, whether a
reloader was configured in `PreRun`, and what its `Reload` call would
return. -/
structure RunEnv where
  fetch : Except String (List JWK)
  fs : FS
  wenv : WEnv
  hasReloader : Bool
  reloadResult : Option String

/-- Result of one execution of the root command: final filesystem,
whether the configured `Reload` was invoked, and the returned error. -/
structure RunResult where
  fs : FS
  reloadInvoked : Bool
  result : Option String
deriving DecidableEq

/-- `rootCommand.Run` from the reloader-based root command
(src/pkg/reload/reload.go, second embedded file): fetch the JWKS,
write the keys, return early on a `WriteKeys` error, skip the reload
when nothing changed or when no reloader is configured, otherwise
invoke `Reload` and propagate its error. -/
def rootRun (L : Libs) (pattern output : String) (env : RunEnv) : RunResult :=
  match env.fetch with
  | .error e => ⟨env.fs, false, some ("problem fetching JWKS: " ++ e)⟩
  | .ok keys =>
    let r := WriteKeys L env.wenv keys pattern output env.fs
    match r.2.2.2 with
    | some e => ⟨r.1, false, some ("problem processing keys: " ++ e)⟩
    | none =>
      if r.2.2.1 = false then ⟨r.1, false, none⟩
      else if env.hasReloader = false then ⟨r.1, false, none⟩
      else
        match env.reloadResult with
        | some e => ⟨r.1, true, some e⟩
        | none => ⟨r.1, true, none⟩

/-- An HTTP request as assembled by `HTTPReloader.Reload`: method, URL
and body bytes. -/
structure Request where
  method : String
  url : String
  body : ByteStr
deriving DecidableEq

/-- The `HTTPReloader` struct of src/pkg/reload/reload.go. -/
structure HTTPReloaderM where
  url : String
  method : String
  payload : Option ByteStr

/-- Environment of one `HTTPReloader.Reload` call: whether
`http.NewRequest` rejects the method/URL pair, and the result of
`http.DefaultClient.Do` (transport error or response status code). -/
structure HTTPEnv where
  newRequestErr : Option String
  doResult : Except String Nat

/-- `HTTPReloader.Reload` from src/pkg/reload/reload.go: build the
request with the payload (or an empty buffer) as body, send it, and
succeed exactly on status 200. The first component lists the requests
handed to `http.DefaultClient.Do`. -/
def httpReload (r : HTTPReloaderM) (env : HTTPEnv) : List Request × Option String :=
  let buf : ByteStr := match r.payload with | some p => p | none => []
  match env.newRequestErr with
  | some e => ([], some ("could not build request: " ++ e))
  | none =>
    let req : Request := ⟨r.method, r.url, buf⟩
    match env.doResult with
    | .error e => ([req], some ("error during request: " ++ e))
    | .ok code =>
      if code ≠ 200 then ([req], some ("bad response code: " ++ toString code))
      else ([req], none)

/-- Numeric value of `syscall.SIGHUP`. -/
def sigHUP : Nat := 1

/-- Numeric value of `syscall.SIGKILL`. -/
def sigKILL : Nat := 9

/-- Numeric value of `syscall.SIGUSR1`. -/
def sigUSR1 : Nat := 10

/-- Numeric value of `syscall.SIGUSR2`. -/
def sigUSR2 : Nat := 12

/-- ASCII upper-casing of one character, as `strings.ToUpper` does on
ASCII input. -/
def asciiUpperChar (c : Char) : Char :=
  if 97 ≤ c.toNat ∧ c.toNat ≤ 122 then Char.ofNat (c.toNat - 32) else c

/-- `strings.ToUpper` restricted to its ASCII behaviour (signal names
are ASCII). -/
def strToUpper (s : String) : String := ⟨s.data.map asciiUpperChar⟩

/-- `signal.Set` from the signal file embedded in src/pkg/cmd/cron.go:
upper-case the input, match the supported names (the Go `switch`
becomes an if-chain), store the signal on success, and on any other
input return an error leaving the stored value `v` untouched. The
first component is the stored value after the call. -/
def signalSet (v : Nat) (s : String) : Nat × Option String :=
  if strToUpper s = "HUP" ∨ strToUpper s = "SIGHUP" then (sigHUP, none)
  else if strToUpper s = "KILL" ∨ strToUpper s = "SIGKILL" then (sigKILL, none)
  else if strToUpper s = "USR1" ∨ strToUpper s = "SIGUSR1" then (sigUSR1, none)
  else if strToUpper s = "USR2" ∨ strToUpper s = "SIGUSR2" then (sigUSR2, none)
  else (v, some ("unsupported signal: " ++ s))

/-- `signal.String` from the signal file embedded in
src/pkg/cmd/cron.go. -/
def signalString (v : Nat) : String :=
  if v = sigHUP then "SIGHUP"
  else if v = sigKILL then "SIGKILL"
  else if v = sigUSR1 then "SIGUSR1"
  else if v = sigUSR2 then "SIGUSR2"
  else "unknown signal"

/-- `signal.Set` from src/unnamed/part_003, the platform variant that
supports only HUP and KILL. -/
def signalSetAlt (v : Nat) (s : String) : Nat × Option String :=
  if strToUpper s = "HUP" ∨ strToUpper s = "SIGHUP" then (sigHUP, none)
  else if strToUpper s = "KILL" ∨ strToUpper s = "SIGKILL" then (sigKILL, none)
  else (v, some ("unsupported signal: " ++ s))

/-- `signal.String` from src/unnamed/part_003. -/
def signalStringAlt (v : Nat) : String :=
  if v = sigHUP then "SIGHUP"
  else if v = sigKILL then "SIGKILL"
  else "unknown signal"

/-- Events of `cronCommand.Run` (src/pkg/cmd/cron.go) in program
order: registering the job (with the cron pattern, the `withSeconds`
flag of `gocron.CronJob`, and the task closure), starting the
scheduler, the blocking wait on `ctx.Done()`, and the scheduler
shutdown. `τ` is the type of the registered task. -/
inductive CronEvent (τ : Type) where
  | newJob (pattern : String) (withSeconds : Bool) (task : τ)
  | startScheduler
  | waitCtxDone
  | shutdown

/-- Environment of one `cronCommand.Run` call: the errors, if any, of
`gocron.NewScheduler` and `Scheduler.NewJob`, and the result of the
final `Scheduler.Shutdown`. -/
structure CronEnv where
  newSchedulerErr : Option String
  newJobErr : Option String
  shutdownResult : Option String

/-- `cronCommand.Run` from src/pkg/cmd/cron.go as a trace of
scheduler events: create the scheduler, register the root command
`Run` as a cron job on the given pattern, start the scheduler, block
on `ctx.Done()`, then shut the scheduler down, returning its result.
Failures of scheduler or job creation return early. -/
def cronRun {τ : Type} (task : τ) (cronPattern : String) (env : CronEnv) :
    List (CronEvent τ) × Option String :=
  match env.newSchedulerErr with
  | some e => ([], some e)
  | none =>
    match env.newJobErr with
    | some e => ([.newJob cronPattern false task], some e)
    | none =>
      ([.newJob cronPattern false task, .startScheduler, .waitCtxDone, .shutdown],
       env.shutdownResult)

theorem b64value_b64char : ∀ i < 64, b64value (b64char i) = i := by decide

theorem b64char_ne_pad : ∀ i < 64, b64char i ≠ b64pad := by decide

theorem b64char_ne_newline : ∀ i < 64, b64char i ≠ 10 := by decide

theorem b64decode_b64encode : ∀ (bs : ByteStr), (∀ x ∈ bs, x < 256) →
    b64decode (b64encode bs) = bs
  | [], _ => rfl
  | [b1], h => by
      have hb1 : b1 < 256 := h b1 (by simp)
      have h1 := b64value_b64char (b1 / 4) (by omega)
      have h2 := b64value_b64char (b1 % 4 * 16) (by omega)
      simp [b64encode, b64decode, h1, h2]
      omega
  | [b1, b2], h => by
      have hb1 : b1 < 256 := h b1 (by simp)
      have hb2 : b2 < 256 := h b2 (by simp)
      have h1 := b64value_b64char (b1 / 4) (by omega)
      have h2 := b64value_b64char (b1 % 4 * 16 + b2 / 16) (by omega)
      have h3 := b64value_b64char (b2 % 16 * 4) (by omega)
      have hne := b64char_ne_pad (b2 % 16 * 4) (by omega)
      simp [b64encode, b64decode, h1, h2, h3, hne]
      constructor <;> omega
  | b1 :: b2 :: b3 :: rest, h => by
      have hb1 : b1 < 256 := h b1 (by simp)
      have hb2 : b2 < 256 := h b2 (by simp)
      have hb3 : b3 < 256 := h b3 (by simp)
      have ih := b64decode_b64encode rest (fun x hx => h x (by simp [hx]))
      have h1 := b64value_b64char (b1 / 4) (by omega)
      have h2 := b64value_b64char (b1 % 4 * 16 + b2 / 16) (by omega)
      have h3 := b64value_b64char (b2 % 16 * 4 + b3 / 64) (by omega)
      have h4 := b64value_b64char (b3 % 64) (by omega)
      have hne3 := b64char_ne_pad (b2 % 16 * 4 + b3 / 64) (by omega)
      have hne4 := b64char_ne_pad (b3 % 64) (by omega)
      simp [b64encode, b64decode, h1, h2, h3, h4, hne3, hne4, ih]
      refine ⟨by omega, by omega, by omega⟩

theorem b64encode_ne_newline : ∀ (bs : ByteStr), (∀ x ∈ bs, x < 256) →
    ∀ c ∈ b64encode bs, c ≠ 10
  | [], _ => by simp [b64encode]
  | [b1], h => by
      have hb1 : b1 < 256 := h b1 (by simp)
      have h1 := b64char_ne_newline (b1 / 4) (by omega)
      have h2 := b64char_ne_newline (b1 % 4 * 16) (by omega)
      simp [b64encode, b64pad]
      exact ⟨h1, h2⟩
  | [b1, b2], h => by
      have hb1 : b1 < 256 := h b1 (by simp)
      have hb2 : b2 < 256 := h b2 (by simp)
      have h1 := b64char_ne_newline (b1 / 4) (by omega)
      have h2 := b64char_ne_newline (b1 % 4 * 16 + b2 / 16) (by omega)
      have h3 := b64char_ne_newline (b2 % 16 * 4) (by omega)
      simp [b64encode, b64pad]
      exact ⟨h1, h2, h3⟩
  | b1 :: b2 :: b3 :: rest, h => by
      have hb1 : b1 < 256 := h b1 (by simp)
      have hb2 : b2 < 256 := h b2 (by simp)
      have hb3 : b3 < 256 := h b3 (by simp)
      have ih := b64encode_ne_newline rest (fun x hx => h x (by simp [hx]))
      have h1 := b64char_ne_newline (b1 / 4) (by omega)
      have h2 := b64char_ne_newline (b1 % 4 * 16 + b2 / 16) (by omega)
      have h3 := b64char_ne_newline (b2 % 16 * 4 + b3 / 64) (by omega)
      have h4 := b64char_ne_newline (b3 % 64) (by omega)
      intro c hc
      simp [b64encode] at hc
      rcases hc with hc | hc | hc | hc | hc
      · exact hc ▸ h1
      · exact hc ▸ h2
      · exact hc ▸ h3
      · exact hc ▸ h4
      · exact ih c hc

theorem stripNL_of_no_newline (s : ByteStr) (h : ∀ c ∈ s, c ≠ 10) :
    stripNL s = s := by
  rw [stripNL, List.filter_eq_self]
  intro a ha
  simpa using h a ha

theorem stripNL_wrapLines (s : ByteStr) : stripNL (wrapLines s) = stripNL s := by
  by_cases h0 : s = []
  · simp [h0, wrapLines]
  · by_cases h1 : s.length ≤ 64
    · rw [wrapLines, if_neg h0, if_pos h1]
      simp [stripNL]
    · rw [wrapLines, if_neg h0, if_neg h1]
      have ih := stripNL_wrapLines (s.drop 64)
      simp only [stripNL, List.filter_append, List.filter_cons] at *
      rw [if_neg (by decide)]
      rw [ih, ← List.filter_append, List.take_append_drop]
termination_by s.length
decreasing_by
  simp only [List.length_drop]
  omega

theorem keychanged_snd_eq_none (L : Libs) (fs : FS) (current : String)
    (data : ByteStr) : (keychanged L fs current data).2 = none := by
  unfold keychanged
  cases fsLookup fs current <;> rfl

theorem joinErrors_eq_none (l : List String) : joinErrors l = none ↔ l = [] := by
  cases l <;> simp [joinErrors]

theorem writeKeysGo_length (L : Libs) (w : WEnv)
    (t : Nat → String → Except String String) (output : String) :
    ∀ (keys : List JWK) (fs : FS) (i : Nat),
      ((writeKeysGo L w t output fs i keys).2).length = keys.length
  | [], _, _ => rfl
  | jwk :: rest, fs, i => by
      simp [writeKeysGo,
        writeKeysGo_length L w t output rest
          (writeKeyStep L w t output fs i jwk).1 (i + 1)]

theorem writeKeysGo_getElem (L : Libs) (w : WEnv)
    (t : Nat → String → Except String String) (output : String) :
    ∀ (keys : List JWK) (fs : FS) (i n : Nat) (jwk : JWK),
      keys[n]? = some jwk →
      ∃ fsMid, ((writeKeysGo L w t output fs i keys).2)[n]? =
        some (writeKeyStep L w t output fsMid (i + n) jwk).2
  | [], _, _, _, _, h => by simp at h
  | hd :: tl, fs, i, 0, jwk, h => by
      simp at h
      subst h
      exact ⟨fs, by simp [writeKeysGo]⟩
  | hd :: tl, fs, i, m + 1, jwk, h => by
      simp at h
      obtain ⟨fsMid, hm⟩ := writeKeysGo_getElem L w t output tl
        (writeKeyStep L w t output fs i hd).1 (i + 1) m jwk h
      refine ⟨fsMid, ?_⟩
      rw [show i + (m + 1) = i + 1 + m by omega]
      simpa [writeKeysGo] using hm

theorem writeKeyStep_shape (L : Libs) (w : WEnv)
    (t : Nat → String → Except String String) (output : String) (fs : FS)
    (n : Nat) (jwk : JWK) (data : ByteStr) (name : String)
    (hout : output ≠ "") (hpem : jwk.PEM L = Except.ok data)
    (hname : t n jwk.kid = Except.ok name) :
    (writeKeyStep L w t output fs n jwk).2 =
        KeyOutcome.unchanged (L.joinPath output name) ∨
    (∃ e, (writeKeyStep L w t output fs n jwk).2 =
        KeyOutcome.writeError (L.joinPath output name) e) ∨
    (writeKeyStep L w t output fs n jwk).2 =
        KeyOutcome.written (L.joinPath output name) data := by
  have hsnd := keychanged_snd_eq_none L fs (L.joinPath output name) data
  cases hkc : keychanged L fs (L.joinPath output name) data with
  | mk b err =>
    have herr : err = none := by rw [hkc] at hsnd; exact hsnd
    subst herr
    unfold writeKeyStep JWK.Changed
    simp only [hpem, hout, if_false, hname, hkc]
    cases b with
    | false => left; rfl
    | true =>
      cases hw : jwk.Write L fs (L.joinPath output name) (w.tempNames n) (w.outcomes n) with
      | mk fs1 res =>
        simp only [hw]
        cases res with
        | some e =>
            right; left
            exact ⟨mkWriteError "writing key failed" jwk.kid e, rfl⟩
        | none =>
            right; right
            rfl

/-- Concrete library instantiation used by witnesses and
counterexamples: the identity as content hash, a fixed DER byte
string as marshaling result, a parser whose template names the key
file after the loop index, and plain slash joining. -/
def witLibs : Libs where
  hash := fun b => b
  marshalPKIX := fun _ => Except.ok [1, 2, 3]
  parseTmpl := fun _ => Except.ok (fun n _ => Except.ok ("key" ++ Nat.repr n ++ ".pem"))
  joinPath := fun a b => a ++ "/" ++ b

/-- Variant of `witLibs` whose PKIX marshaling always fails, for
exercising the marshaling-error path. -/
def failLibs : Libs :=
  { witLibs with marshalPKIX := fun _ => Except.error "marshal failed" }

/-- Concrete write environment: fresh temp names, all writes succeed. -/
def witWEnv : WEnv where
  tempNames := fun n => "tmp" ++ Nat.repr n
  outcomes := fun _ => WriteOutcome.success

/-- A fetched RSA key with a supported algorithm. -/
def rsaKey : JWK := ⟨"RS256", "k1", .rsa 7 3, none⟩

/-- A fetched ECDSA key with a supported algorithm. -/
def ecdsaKey : JWK := ⟨"ES384", "k3", .ecdsa 2 5, none⟩

/-- A fetched key with an algorithm the converter does not support. -/
def hmacKey : JWK := ⟨"HS256", "k2", .other, none⟩

/-- Run environment in which the fetch succeeds, the keyset is a
single convertible key, a reloader is configured and reloads
succeed. -/
def goodEnv : RunEnv where
  fetch := Except.ok [rsaKey]
  fs := []
  wenv := witWEnv
  hasReloader := true
  reloadResult := none

/-- Run environment whose keyset mixes a convertible key with an
unsupported one: the pass writes the first key (so it reports a
change) and collects an error for the second. -/
def mixedEnv : RunEnv where
  fetch := Except.ok [rsaKey, hmacKey]
  fs := []
  wenv := witWEnv
  hasReloader := true
  reloadResult := none

/-- C2: the change decision for a key is a content-hash comparison.
For every byte slice `data` and path `current`, `keychanged` returns
true exactly when the content hash of `data` differs from the content
hash of the file at `current`, and it returns `(true, nil)` when no
file exists at `current`. -/
theorem keychanged_is_hash_comparison (L : Libs) (fs : FS) (current : String)
    (data : ByteStr) :
    (fsLookup fs current = none → keychanged L fs current data = (true, none)) ∧
    (∀ content, fsLookup fs current = some content →
      keychanged L fs current data = ((L.hash data != L.hash content), none) ∧
      ((keychanged L fs current data).1 = true ↔ L.hash data ≠ L.hash content)) := by
  constructor
  · intro h
    simp [keychanged, h]
  · intro content h
    constructor
    · simp [keychanged, h]
    · simp [keychanged, h, bne_iff_ne]

/-- Witness for C2 at the missing-file case of the test suite. -/
theorem keychanged_is_hash_comparison_witness :
    keychanged witLibs [] "missing.pem" [1, 2, 3] = (true, none) :=
  (keychanged_is_hash_comparison witLibs [] "missing.pem" [1, 2, 3]).1 rfl

/-- C6: `HTTPReloader.Reload` sends one HTTP request with the payload
as body, returns nil exactly when the request is built and completes
with status 200 OK, and errs on any transport failure, malformed
request, or other status code. -/
theorem httpReload_ok_iff (r : HTTPReloaderM) (env : HTTPEnv) :
    ((httpReload r env).2 = none ↔
      env.newRequestErr = none ∧ env.doResult = Except.ok 200) ∧
    (env.newRequestErr = none →
      (httpReload r env).1 = [⟨r.method, r.url, r.payload.getD []⟩]) ∧
    (httpReload r env).1.length ≤ 1 := by
  obtain ⟨nre, dr⟩ := env
  cases nre with
  | some e => simp [httpReload]
  | none =>
    cases dr with
    | error e => simp [httpReload, Option.getD]; cases r.payload <;> rfl
    | ok code =>
      by_cases h200 : code = 200
      · subst h200
        simp [httpReload, Option.getD]
        cases r.payload <;> rfl
      · cases hp : r.payload <;> simp [httpReload, h200, hp, Option.getD]

/-- Witness for C6: a concrete delivered-and-acknowledged call. -/
theorem httpReload_ok_iff_witness :
    (httpReload ⟨"http.example", "POST", some [7]⟩ ⟨none, Except.ok 200⟩).2 = none :=
  (httpReload_ok_iff ⟨"http.example", "POST", some [7]⟩ ⟨none, Except.ok 200⟩).1.mpr
    ⟨rfl, rfl⟩

/-- C7: the cron subcommand registers the root command run cycle as a
job on the given cron pattern, starts the scheduler, blocks until the
context is cancelled, and then shuts the scheduler down, returning
the shutdown result. -/
theorem cronRun_schedules_root_run (L : Libs) (pattern output cronPattern : String)
    (env : CronEnv) (h1 : env.newSchedulerErr = none) (h2 : env.newJobErr = none) :
    cronRun (rootRun L pattern output) cronPattern env =
      ([CronEvent.newJob cronPattern false (rootRun L pattern output),
        CronEvent.startScheduler, CronEvent.waitCtxDone, CronEvent.shutdown],
       env.shutdownResult) := by
  simp [cronRun, h1, h2]

/-- Witness for C7 at a concrete environment. -/
theorem cronRun_schedules_root_run_witness :
    cronRun (rootRun witLibs "p" "out") "* * * * *" ⟨none, none, none⟩ =
      ([CronEvent.newJob "* * * * *" false (rootRun witLibs "p" "out"),
        CronEvent.startScheduler, CronEvent.waitCtxDone, CronEvent.shutdown],
       none) :=
  cronRun_schedules_root_run witLibs "p" "out" "* * * * *" ⟨none, none, none⟩ rfl rfl

/-- C9: `JWK.Write` is atomic with respect to the destination. With a
fresh temp name (as `os.CreateTemp` guarantees), any error leaves the
file at the destination unchanged; success leaves exactly the full
PEM data there; and no temp file is left behind. -/
theorem write_is_atomic (L : Libs) (jwk : JWK) (fs : FS) (name tempName : String)
    (oc : WriteOutcome) (hfresh : fsLookup fs tempName = none)
    (hne : tempName ≠ name) :
    ((JWK.Write L jwk fs name tempName oc).2 ≠ none →
      fsLookup (JWK.Write L jwk fs name tempName oc).1 name = fsLookup fs name) ∧
    ((JWK.Write L jwk fs name tempName oc).2 = none →
      ∃ data, jwk.PEM L = Except.ok data ∧
        fsLookup (JWK.Write L jwk fs name tempName oc).1 name = some data) ∧
    fsLookup (JWK.Write L jwk fs name tempName oc).1 tempName = none := by
  have hnne : ¬ name = tempName := fun h => hne h.symm
  cases hpem : jwk.PEM L with
  | error e =>
    refine ⟨fun _ => ?_, fun h => ?_, ?_⟩
    · simp [JWK.Write, hpem]
    · simp [JWK.Write, hpem] at h
    · simpa [JWK.Write, hpem] using hfresh
  | ok data =>
    cases oc with
    | createFail =>
      refine ⟨fun _ => ?_, fun h => ?_, ?_⟩
      · simp [JWK.Write, hpem]
      · simp [JWK.Write, hpem] at h
      · simpa [JWK.Write, hpem] using hfresh
    | writeFail k =>
      refine ⟨fun _ => ?_, fun h => ?_, ?_⟩
      · simp [JWK.Write, hpem, fsLookup_fsErase, fsLookup_fsInsert, hnne]
      · simp [JWK.Write, hpem] at h
      · simp [JWK.Write, hpem, fsLookup_fsErase]
    | closeFail =>
      refine ⟨fun _ => ?_, fun h => ?_, ?_⟩
      · simp [JWK.Write, hpem, fsLookup_fsErase, fsLookup_fsInsert, hnne]
      · simp [JWK.Write, hpem] at h
      · simp [JWK.Write, hpem, fsLookup_fsErase]
    | renameFail =>
      refine ⟨fun _ => ?_, fun h => ?_, ?_⟩
      · simp [JWK.Write, hpem, fsLookup_fsErase, fsLookup_fsInsert, hnne]
      · simp [JWK.Write, hpem] at h
      · simp [JWK.Write, hpem, fsLookup_fsErase]
    | success =>
      refine ⟨fun h => absurd ?_ h, fun _ => ⟨data, rfl, ?_⟩, ?_⟩
      · simp [JWK.Write, hpem]
      · simp [JWK.Write, hpem, fsLookup_fsErase, fsLookup_fsInsert, hnne]
      · simp [JWK.Write, hpem, fsLookup_fsErase]

/-- Witness for C9: a failed rename leaves the existing destination
content in place. -/
theorem write_is_atomic_witness :
    fsLookup (JWK.Write witLibs rsaKey [("out/k.pem", [9])] "out/k.pem" "tmp0"
      WriteOutcome.renameFail).1 "out/k.pem" = fsLookup [("out/k.pem", [9])] "out/k.pem" :=
  (write_is_atomic witLibs rsaKey [("out/k.pem", [9])] "out/k.pem" "tmp0"
    WriteOutcome.renameFail rfl (by decide)).1 (by decide)

/-- C10: signal-name parsing and printing round-trip, for the
four-signal variant embedded in src/pkg/cmd/cron.go and the
two-signal variant of src/unnamed/part_003. Every supported name
(with or without the SIG prefix, in any letter case, so any string
whose upper-casing is a supported name) is accepted and stored, and
`String` then prints the canonical uppercase SIG-prefixed name of
that same signal; every other input string is rejected with an error
and leaves the stored value unchanged. -/
theorem signal_set_string_roundtrip (v : Nat) (s : String) :
    ((strToUpper s = "HUP" ∨ strToUpper s = "SIGHUP") →
      signalSet v s = (sigHUP, none) ∧ signalString sigHUP = "SIGHUP" ∧
      signalSetAlt v s = (sigHUP, none) ∧ signalStringAlt sigHUP = "SIGHUP") ∧
    ((strToUpper s = "KILL" ∨ strToUpper s = "SIGKILL") →
      signalSet v s = (sigKILL, none) ∧ signalString sigKILL = "SIGKILL" ∧
      signalSetAlt v s = (sigKILL, none) ∧ signalStringAlt sigKILL = "SIGKILL") ∧
    ((strToUpper s = "USR1" ∨ strToUpper s = "SIGUSR1") →
      signalSet v s = (sigUSR1, none) ∧ signalString sigUSR1 = "SIGUSR1") ∧
    ((strToUpper s = "USR2" ∨ strToUpper s = "SIGUSR2") →
      signalSet v s = (sigUSR2, none) ∧ signalString sigUSR2 = "SIGUSR2") ∧
    (strToUpper s ∉ (["HUP", "SIGHUP", "KILL", "SIGKILL",
        "USR1", "SIGUSR1", "USR2", "SIGUSR2"] : List String) →
      signalSet v s = (v, some ("unsupported signal: " ++ s))) ∧
    (strToUpper s ∉ (["HUP", "SIGHUP", "KILL", "SIGKILL"] : List String) →
      signalSetAlt v s = (v, some ("unsupported signal: " ++ s))) := by
  refine ⟨?_, ?_, ?_, ?_, ?_, ?_⟩
  · rintro (h | h) <;>
      simp [signalSet, signalSetAlt, signalString, signalStringAlt,
        h, sigHUP, sigKILL, sigUSR1, sigUSR2]
  · rintro (h | h) <;>
      simp [signalSet, signalSetAlt, signalString, signalStringAlt,
        h, sigHUP, sigKILL, sigUSR1, sigUSR2]
  · rintro (h | h) <;>
      simp [signalSet, signalString, h, sigHUP, sigKILL, sigUSR1, sigUSR2]
  · rintro (h | h) <;>
      simp [signalSet, signalString, h, sigHUP, sigKILL, sigUSR1, sigUSR2]
  · intro h
    simp only [List.mem_cons, List.not_mem_nil, or_false, not_or] at h
    obtain ⟨h1, h2, h3, h4, h5, h6, h7, h8⟩ := h
    simp [signalSet, h1, h2, h3, h4, h5, h6, h7, h8]
  · intro h
    simp only [List.mem_cons, List.not_mem_nil, or_false, not_or] at h
    obtain ⟨h1, h2, h3, h4⟩ := h
    simp [signalSetAlt, h1, h2, h3, h4]

/-- Witness for C10: the lower-case unprefixed name is accepted and
prints canonically, and an unsupported name is rejected leaving the
value unchanged. -/
theorem signal_set_string_roundtrip_witness :
    (signalSet 9 "hup" = (sigHUP, none) ∧ signalString sigHUP = "SIGHUP" ∧
      signalSetAlt 9 "hup" = (sigHUP, none) ∧ signalStringAlt sigHUP = "SIGHUP") ∧
    signalSet 9 "TERM" = (9, some ("unsupported signal: " ++ "TERM")) :=
  ⟨(signal_set_string_roundtrip 9 "hup").1 (Or.inl (by decide)),
   (signal_set_string_roundtrip 9 "TERM").2.2.2.2.1 (by decide)⟩

/-- C3 counterexample: not every key in a fetched keyset converts. A
key with algorithm HS256 is a member of a keyset, and its PEM
conversion returns an error rather than succeeding. -/
theorem pem_not_total_counterexample :
    hmacKey ∈ [rsaKey, hmacKey] ∧
    hmacKey.PEM witLibs =
      Except.error (mkWriteError "invalid key" "k2" errUnsupportedAlgorithm) := by
  decide

/-- C3 (amended): a fetched key (cache empty) converts to PEM exactly
when its algorithm is RS256/RS384/RS512 with RSA key material or
ES256/ES384/ES512 with ECDSA key material and the PKIX marshaling
succeeds; the PEM output is then the PEM encoding of the marshaled
public key. Every other key yields an error: a key whose algorithm
and material match but whose PKIX marshaling fails propagates the
marshaling error, mismatched material yields the type-assertion
error, and any other algorithm yields the unsupported-algorithm
error. -/
theorem pem_conversion_domain (L : Libs) (jwk : JWK) (hcache : jwk.data = none) :
    ((jwk.alg = "RS256" ∨ jwk.alg = "RS384" ∨ jwk.alg = "RS512") →
      ((∀ b, L.marshalPKIX jwk.key = Except.ok b →
          ∀ p q, jwk.key = KeyMaterial.rsa p q →
            jwk.PEM L = Except.ok (pemEncode b)) ∧
       (∀ e, L.marshalPKIX jwk.key = Except.error e →
          ∀ p q, jwk.key = KeyMaterial.rsa p q →
            jwk.PEM L = Except.error e) ∧
       ((∀ p q, jwk.key ≠ KeyMaterial.rsa p q) →
          jwk.PEM L =
            Except.error (mkWriteError "invalid key" jwk.kid errNotRSAPublicKey)))) ∧
    ((jwk.alg = "ES256" ∨ jwk.alg = "ES384" ∨ jwk.alg = "ES512") →
      ((∀ b, L.marshalPKIX jwk.key = Except.ok b →
          ∀ p q, jwk.key = KeyMaterial.ecdsa p q →
            jwk.PEM L = Except.ok (pemEncode b)) ∧
       (∀ e, L.marshalPKIX jwk.key = Except.error e →
          ∀ p q, jwk.key = KeyMaterial.ecdsa p q →
            jwk.PEM L = Except.error e) ∧
       ((∀ p q, jwk.key ≠ KeyMaterial.ecdsa p q) →
          jwk.PEM L =
            Except.error (mkWriteError "invalid key" jwk.kid errNotECDSAPublicKey)))) ∧
    (¬(jwk.alg = "RS256" ∨ jwk.alg = "RS384" ∨ jwk.alg = "RS512") →
     ¬(jwk.alg = "ES256" ∨ jwk.alg = "ES384" ∨ jwk.alg = "ES512") →
      jwk.PEM L =
        Except.error (mkWriteError "invalid key" jwk.kid errUnsupportedAlgorithm)) := by
  refine ⟨fun halg => ⟨?_, ?_, ?_⟩, fun halg => ⟨?_, ?_, ?_⟩, fun hrs hes => ?_⟩
  · intro b hm p q hk
    simp [JWK.PEM, JWK.Bytes, hcache, halg, hk, hk ▸ hm]
  · intro e hm p q hk
    simp [JWK.PEM, JWK.Bytes, hcache, halg, hk, hk ▸ hm]
  · intro hk
    cases hkk : jwk.key with
    | rsa p q => exact absurd hkk (hk p q)
    | ecdsa x y => simp [JWK.PEM, JWK.Bytes, hcache, halg, hkk]
    | other => simp [JWK.PEM, JWK.Bytes, hcache, halg, hkk]
  · intro b hm p q hk
    have hrs : ¬(jwk.alg = "RS256" ∨ jwk.alg = "RS384" ∨ jwk.alg = "RS512") := by
      rcases halg with h | h | h <;> simp [h]
    simp [JWK.PEM, JWK.Bytes, hcache, halg, hrs, hk, hk ▸ hm]
  · intro e hm p q hk
    have hrs : ¬(jwk.alg = "RS256" ∨ jwk.alg = "RS384" ∨ jwk.alg = "RS512") := by
      rcases halg with h | h | h <;> simp [h]
    simp [JWK.PEM, JWK.Bytes, hcache, halg, hrs, hk, hk ▸ hm]
  · intro hk
    have hrs : ¬(jwk.alg = "RS256" ∨ jwk.alg = "RS384" ∨ jwk.alg = "RS512") := by
      rcases halg with h | h | h <;> simp [h]
    cases hkk : jwk.key with
    | rsa p q => simp [JWK.PEM, JWK.Bytes, hcache, halg, hrs, hkk]
    | ecdsa x y => exact absurd hkk (hk x y)
    | other => simp [JWK.PEM, JWK.Bytes, hcache, halg, hrs, hkk]
  · simp [JWK.PEM, JWK.Bytes, hcache, hrs, hes]

/-- Witness for C3 at a concrete ECDSA key: conversion succeeds when
marshaling succeeds and propagates the marshaling error when it
fails. -/
theorem pem_conversion_domain_witness :
    ecdsaKey.PEM witLibs = Except.ok (pemEncode [1, 2, 3]) ∧
    ecdsaKey.PEM failLibs = Except.error "marshal failed" :=
  ⟨((pem_conversion_domain witLibs ecdsaKey rfl).2.1 (Or.inr (Or.inl rfl))).1
      [1, 2, 3] rfl 2 5 rfl,
   ((pem_conversion_domain failLibs ecdsaKey rfl).2.1 (Or.inr (Or.inl rfl))).2.1
      "marshal failed" rfl 2 5 rfl⟩

/-- C4: for every key whose byte conversion succeeds, the PEM output
is the BEGIN/END PUBLIC KEY delimited block whose body is the
line-wrapped base64 encoding of the PKIX DER bytes; the body decodes
back to exactly those bytes. -/
theorem pem_output_structure (L : Libs) (jwk : JWK) (b : ByteStr)
    (hb : jwk.Bytes L = Except.ok b) (hrange : ∀ x ∈ b, x < 256) :
    jwk.PEM L = Except.ok (strToBytes "-----BEGIN PUBLIC KEY-----\n" ++
      wrapLines (b64encode b) ++ strToBytes "-----END PUBLIC KEY-----\n") ∧
    stripNL (wrapLines (b64encode b)) = b64encode b ∧
    b64decode (stripNL (wrapLines (b64encode b))) = b := by
  have hnl := b64encode_ne_newline b hrange
  have hstrip : stripNL (wrapLines (b64encode b)) = b64encode b := by
    rw [stripNL_wrapLines, stripNL_of_no_newline _ hnl]
  refine ⟨?_, hstrip, ?_⟩
  · simp [JWK.PEM, hb, pemEncode]
  · rw [hstrip]
    exact b64decode_b64encode b hrange

/-- Witness for C4 at a concrete RSA key. -/
theorem pem_output_structure_witness :
    rsaKey.PEM witLibs = Except.ok (strToBytes "-----BEGIN PUBLIC KEY-----\n" ++
      wrapLines (b64encode [1, 2, 3]) ++ strToBytes "-----END PUBLIC KEY-----\n") :=
  (pem_output_structure witLibs rsaKey [1, 2, 3] rfl (by decide)).1

/-- C8: `WriteKeys` processes every key even when some fail: the
outcome list has one entry per key, the returned error is nil exactly
when no per-key error occurred (`errors.Join` of the collected
errors), and the changed flag is true exactly when at least one key
was successfully written. -/
theorem writeKeys_error_isolation (L : Libs) (w : WEnv) (keys : List JWK)
    (pattern output : String) (fs : FS)
    (t : Nat → String → Except String String)
    (hpat : L.parseTmpl pattern = Except.ok t) :
    ((WriteKeys L w keys pattern output fs).2.1).length = keys.length ∧
    ((WriteKeys L w keys pattern output fs).2.2.2 = none ↔
      ∀ o ∈ (WriteKeys L w keys pattern output fs).2.1,
        KeyOutcome.errOf o = none) ∧
    ((WriteKeys L w keys pattern output fs).2.2.1 = true ↔
      ∃ o ∈ (WriteKeys L w keys pattern output fs).2.1,
        KeyOutcome.isWritten o = true) := by
  simp only [WriteKeys, hpat]
  refine ⟨writeKeysGo_length L w t output keys fs 0, ?_, ?_⟩
  · rw [joinErrors_eq_none, List.filterMap_eq_nil_iff]
  · rw [List.any_eq_true]

/-- Witness for C8: a keyset mixing a convertible and an unsupported
key still yields one outcome per key. -/
theorem writeKeys_error_isolation_witness :
    ((WriteKeys witLibs witWEnv [rsaKey, hmacKey] "p" "out" []).2.1).length =
      ([rsaKey, hmacKey] : List JWK).length :=
  (writeKeys_error_isolation witLibs witWEnv [rsaKey, hmacKey] "p" "out" []
    (fun n _ => Except.ok ("key" ++ Nat.repr n ++ ".pem")) rfl).1

/-- C5: key files are named via the templated pattern. With a
non-empty output directory, whenever the key at position `n` with key
id `kid` converts and the pattern executes to `name`, any recorded
write for that key is at the path joining the output directory with
`name` and carries the PEM data; and at the loop-body level, a key
detected as changed whose write succeeds is stored at exactly that
path with exactly that data. -/
theorem writeKeys_uses_templated_path (L : Libs) (w : WEnv) (keys : List JWK)
    (pattern output : String) (fs : FS)
    (t : Nat → String → Except String String)
    (n : Nat) (jwk : JWK) (data : ByteStr) (name : String)
    (hpat : L.parseTmpl pattern = Except.ok t)
    (hout : output ≠ "")
    (hkey : keys[n]? = some jwk)
    (hpem : jwk.PEM L = Except.ok data)
    (hname : t n jwk.kid = Except.ok name) :
    (∀ o, ((WriteKeys L w keys pattern output fs).2.1)[n]? = some o →
      KeyOutcome.pathOf o = some (L.joinPath output name) ∧
      ∀ p d, o = KeyOutcome.written p d →
        p = L.joinPath output name ∧ d = data) ∧
    (∀ fsMid, (keychanged L fsMid (L.joinPath output name) data).1 = true →
      w.outcomes n = WriteOutcome.success →
      w.tempNames n ≠ L.joinPath output name →
      (writeKeyStep L w t output fsMid n jwk).2 =
        KeyOutcome.written (L.joinPath output name) data ∧
      fsLookup (writeKeyStep L w t output fsMid n jwk).1
        (L.joinPath output name) = some data) := by
  constructor
  · intro o ho
    simp only [WriteKeys, hpat] at ho
    obtain ⟨fsMid, hm⟩ := writeKeysGo_getElem L w t output keys fs 0 n jwk hkey
    rw [Nat.zero_add] at hm
    rw [ho] at hm
    injection hm with hm
    have hshape := writeKeyStep_shape L w t output fsMid n jwk data name hout hpem hname
    rw [← hm] at hshape
    rcases hshape with h | ⟨e, h⟩ | h <;> subst h
    · exact ⟨rfl, fun p d hpd => by simp at hpd⟩
    · exact ⟨rfl, fun p d hpd => by simp at hpd⟩
    · exact ⟨rfl, fun p d hpd => by
        simp only [KeyOutcome.written.injEq] at hpd
        exact ⟨hpd.1.symm, hpd.2.symm⟩⟩
  · intro fsMid hkc hsucc htne
    have hkcp : keychanged L fsMid (L.joinPath output name) data = (true, none) := by
      have h2 := keychanged_snd_eq_none L fsMid (L.joinPath output name) data
      cases hk0 : keychanged L fsMid (L.joinPath output name) data with
      | mk b e =>
        rw [hk0] at hkc h2
        simp only at hkc h2
        rw [hkc, h2]
    have hnsym : ¬ L.joinPath output name = w.tempNames n := fun h => htne h.symm
    unfold writeKeyStep JWK.Changed
    rw [hsucc]
    simp only [hpem, hout, if_false, hname, hkcp, JWK.Write]
    constructor
    · trivial
    · simp [fsLookup_fsErase, fsLookup_fsInsert, hnsym]

/-- Witness for C5 at the loop body on a concrete key, empty
filesystem (so the key counts as changed) and successful write. -/
theorem writeKeys_uses_templated_path_witness :
    (writeKeyStep witLibs witWEnv
        (fun n _ => Except.ok ("key" ++ Nat.repr n ++ ".pem")) "out" [] 0 rsaKey).2 =
      KeyOutcome.written (witLibs.joinPath "out" "key0.pem") (pemEncode [1, 2, 3]) ∧
    fsLookup (writeKeyStep witLibs witWEnv
        (fun n _ => Except.ok ("key" ++ Nat.repr n ++ ".pem")) "out" [] 0 rsaKey).1
      (witLibs.joinPath "out" "key0.pem") = some (pemEncode [1, 2, 3]) :=
  (writeKeys_uses_templated_path witLibs witWEnv [rsaKey] "p" "out" []
    (fun n _ => Except.ok ("key" ++ Nat.repr n ++ ".pem")) 0 rsaKey
    (pemEncode [1, 2, 3]) "key0.pem" rfl (by decide) rfl rfl rfl).2
    [] (by decide) rfl (by decide)

/-- C1 counterexample: a run in which the fetch succeeds, the
`WriteKeys` pass reports a change, and a reloader is configured, yet
no reload is invoked, because the same pass also collected an error
for another key and the root command returns on that error before
checking the changed flag. -/
theorem rootRun_no_reload_despite_change :
    mixedEnv.fetch = Except.ok [rsaKey, hmacKey] ∧
    mixedEnv.hasReloader = true ∧
    (WriteKeys witLibs mixedEnv.wenv [rsaKey, hmacKey] "p" "out"
      mixedEnv.fs).2.2.1 = true ∧
    (rootRun witLibs "p" "out" mixedEnv).reloadInvoked = false := by
  decide

/-- C1 (amended): for every run in which the JWKS fetch succeeds, the
configured reloader is invoked exactly when the `WriteKeys` pass
reports a change AND returns no error AND a reload mechanism is
configured; in particular no reload happens when no key content
changed, and none happens when the pass returned an error even if a
change was written. -/
theorem rootRun_reload_iff (L : Libs) (pattern output : String) (env : RunEnv)
    (keys : List JWK) (hfetch : env.fetch = Except.ok keys) :
    (rootRun L pattern output env).reloadInvoked = true ↔
      ((WriteKeys L env.wenv keys pattern output env.fs).2.2.1 = true ∧
       (WriteKeys L env.wenv keys pattern output env.fs).2.2.2 = none ∧
       env.hasReloader = true) := by
  simp only [rootRun, hfetch]
  cases hE : (WriteKeys L env.wenv keys pattern output env.fs).2.2.2 with
  | some e => simp [hE]
  | none =>
    cases hC : (WriteKeys L env.wenv keys pattern output env.fs).2.2.1 with
    | false => simp [hC]
    | true =>
      cases hR : env.hasReloader with
      | false => simp [hR]
      | true => cases env.reloadResult <;> simp [hR]

/-- Witness for C1: in a run whose single key converts, is written,
and with a reloader configured, the reload is invoked. -/
theorem rootRun_reload_iff_witness :
    (rootRun witLibs "p" "out" goodEnv).reloadInvoked = true :=
  (rootRun_reload_iff witLibs "p" "out" goodEnv [rsaKey] rfl).mpr (by decide)
